import Mathlib

/-!
Shallow embedding of the AI-Room-Designer generation pipeline:
the orchestrator `handleGenerate` (src/App.tsx), the Gemini service
operations `fileToGenerativePart`, `enhanceImage` and `generateDecorIdeas`
(src/services/geminiService.ts), and the ResultCard comparison
compositor `createComparisonImage`.  The asynchronous fan-out of the
orchestrator is modelled by an explicit completion order, and the
issue/complete structure of the per-room promise chains by a trace model.
-/

namespace RoomDesigner

/-- Outcome of the FileReader read inside fileToGenerativePart
(geminiService.ts lines 7 to 19).  The code installs only an onloadend
handler; onloadend also fires after a failed read, with reader.result
equal to null, which is not a string.  `str s` models reader.result
being the string s (normally a data URL); `nonString` models a failed
read (result null) or any other non-string result. -/
inductive ReaderResult
  | str (s : String)
  | nonString
  deriving DecidableEq

/-- A browser File as the pipeline observes it: what reading it yields,
and its mime type (file.type in the source; `type` is a Lean keyword,
hence the field name `ftype`). -/
structure GFile where
  readerResult : ReaderResult
  ftype : String
  deriving DecidableEq

/-- JS String.prototype.split with a single-character separator, over
the character list (structural recursion so that concrete inputs
evaluate): chunks between separators, empty chunks preserved. -/
def splitCharAux (sep : Char) : List Char → List Char → List (List Char)
  | [], acc => [acc.reverse]
  | x :: xs, acc =>
    if x = sep then acc.reverse :: splitCharAux sep xs []
    else splitCharAux sep xs (x :: acc)

/-- JS s.split(sep) for a one-character separator. -/
def jsSplit (sep : Char) (s : String) : List String :=
  (splitCharAux sep s.data []).map (fun l => ⟨l⟩)

/-- The JS expression reader.result.split(sep)[1] where sep is a comma:
`none` models the JS value undefined (no second chunk). -/
def jsSplitSnd (s : String) : Option String := (jsSplit ',' s)[1]?

/-- JS String.prototype.trim: strip leading and trailing whitespace
(structural recursion over the character list). -/
def jsTrim (s : String) : String :=
  ⟨((s.data.dropWhile Char.isWhitespace).reverse.dropWhile Char.isWhitespace).reverse⟩

/-- inlineData payload of a generative part; `data = none` models the JS
value undefined. -/
structure InlineData where
  data : Option String
  mimeType : String
  deriving DecidableEq

/-- The `{ inlineData: { data, mimeType } }` shape returned by
fileToGenerativePart. -/
structure GenerativePart where
  inlineData : InlineData
  deriving DecidableEq

/-- geminiService.ts lines 7 to 27.  On a string reader result the code
resolves with result.split(sep)[1] (sep a comma); on a non-string result
it resolves with the empty string (the code comments this branch with
"Or handle error appropriately" and never rejects the promise). -/
def fileToGenerativePart (file : GFile) : GenerativePart :=
  let base64EncodedData : Option String :=
    match file.readerResult with
    | .str s => jsSplitSnd s
    | .nonString => some ""
  ⟨⟨base64EncodedData, file.ftype⟩⟩

/-- One part of a model response: optional inlineData and optional text. -/
structure RespPart where
  inlineData : Option InlineData
  text : Option String
  deriving DecidableEq

/-- candidate.content of a model response. -/
structure Content where
  parts : List RespPart
  deriving DecidableEq

/-- One candidate of a model response. -/
structure Candidate where
  content : Content
  deriving DecidableEq

/-- A model response as the service consumes it. -/
structure GenResponse where
  candidates : List Candidate
  deriving DecidableEq

/-- A JS thrown value as observed by the catch blocks: either an Error
instance carrying a message, or any non-Error value. -/
inductive JsThrown
  | err (message : String)
  | nonError
  deriving DecidableEq

/-- An Error instance (only its message is observed by the code). -/
structure JsError where
  message : String
  deriving DecidableEq

/-- The external model service: outcome of ai.models.generateContent for
the enhancement request and for the design-generation request.  The two
requests differ in their contents, so the environment exposes one oracle
per call site, keyed by the inputs that vary. -/
structure Env where
  enhance : GFile → Except JsThrown GenResponse
  generate : GFile → List GFile → String → Except JsThrown GenResponse

/-- The find predicate of enhanceImage (geminiService.ts line 60):
part.inlineData?.data is truthy iff inlineData is present and its data
is a non-empty string. -/
def truthyData (part : RespPart) : Bool :=
  match part.inlineData with
  | some d =>
    match d.data with
    | some s => s != ""
    | none => false
  | none => false

/-- response.candidates?.[0]?.content?.parts with an absent optional
modelled as the empty list (observationally equal for the scans the
service performs). -/
def candidateParts (response : GenResponse) : List RespPart :=
  match response.candidates[0]? with
  | some c => c.content.parts
  | none => []

/-- geminiService.ts lines 39 to 77.  On a response whose parts contain
a part with truthy inlineData data, returns that data; otherwise (the
thrown no-image Error, or any thrown transport error) the catch block
re-encodes the input file and returns its bytes.  The function never
rejects. -/
def enhanceImage (env : Env) (imageFile : GFile) : Option String :=
  match env.enhance imageFile with
  | .ok response =>
    match (candidateParts response).find? truthyData with
    | some part => part.inlineData.bind (fun d => d.data)
    | none => (fileToGenerativePart imageFile).inlineData.data
  | .error _ => (fileToGenerativePart imageFile).inlineData.data

/-- The for loop of generateDecorIdeas (geminiService.ts lines 130 to
137): image starts as the empty string; the first part that has an
inlineData field assigns image := part.inlineData.data and breaks.
`none` models image ending up as the JS value undefined (inlineData
present but its data field absent). -/
def scanImage (parts : List RespPart) : Option String :=
  match parts.find? (fun part => part.inlineData.isSome) with
  | some part => part.inlineData.bind (fun d => d.data)
  | none => some ""

/-- The message of the Error thrown when no image is found
(geminiService.ts line 140). -/
def noImageMsg : String :=
  "The model did not return an image. Please try refining your prompt."

/-- The catch block of generateDecorIdeas (lines 145 to 151): an Error
is wrapped with the failed-to-generate text; a non-Error thrown value
becomes the unknown-error message. -/
def wrapThrown : JsThrown → JsError
  | .err m => ⟨"Failed to generate design: " ++ m⟩
  | .nonError => ⟨"An unknown error occurred while generating the design."⟩

/-- geminiService.ts lines 80 to 152.  The transport call either throws
(wrapped by the catch) or yields a response; the scan loop fills image;
a falsy image (empty string or undefined) raises the no-image Error,
which is itself thrown inside the try block and therefore also wrapped
by the catch; a truthy image is returned. -/
def generateDecorIdeas (env : Env) (roomImage : GFile) (decorImages : List GFile)
    (stylePrompt : String) : Except JsError String :=
  match env.generate roomImage decorImages stylePrompt with
  | .error th => .error (wrapThrown th)
  | .ok response =>
    match scanImage (candidateParts response) with
    | some s => if s = "" then .error (wrapThrown (.err noImageMsg)) else .ok s
    | none => .error (wrapThrown (.err noImageMsg))

/-- App.tsx lines 9 to 12.  Note the source types the second field as
DesignIdea, but that type is imported from geminiService, which never
defines or exports it, and generateDecorIdeas in fact supplies a plain
string (the after-image data); the embedding records what the code
produces. -/
structure Result where
  enhancedBeforeImage : Option String
  idea : String
  deriving DecidableEq

/-- The Result-relevant component state of App (results and error). -/
structure AppState where
  results : List Result
  error : Option String
  deriving DecidableEq

/-- An external request issued by the orchestrator. -/
inductive Call
  | enhanceCall (roomImage : GFile)
  | generateCall (roomImage : GFile) (decorImages : List GFile) (stylePrompt : String)
  deriving DecidableEq

/-- The per-room async closure of App.tsx lines 49 to 58: await
enhanceImage (which never rejects), then await generateDecorIdeas, and
pair the outcomes. -/
def roomPromise (env : Env) (decorImages : List GFile) (stylePrompt : String)
    (roomImage : GFile) : Except JsError Result :=
  let enhancedBeforeImage := enhanceImage env roomImage
  match generateDecorIdeas env roomImage decorImages stylePrompt with
  | .ok idea => .ok ⟨enhancedBeforeImage, idea⟩
  | .error e => .error e

/-- Extract the value of a successful Except. -/
def exceptValue? {ε α : Type} : Except ε α → Option α
  | .ok a => some a
  | .error _ => none

/-- The rejection Promise.all settles with: the error of the first
settled promise to reject, where `order` is the completion order of the
per-room chains (a permutation of their indices). -/
def firstRejection {ε α : Type} (order : List Nat) (ps : List (Except ε α)) : Option ε :=
  order.findSome? (fun i =>
    match ps[i]? with
    | some (Except.error e) => some e
    | _ => none)

/-- Promise.all over the per-room chains: rejects with the first
rejection in completion order; otherwise resolves with all values in
input order (input-order packing is a Promise.all guarantee independent
of completion order). -/
def promiseAll {ε α : Type} (order : List Nat) (ps : List (Except ε α)) :
    Except ε (List α) :=
  match firstRejection order ps with
  | some e => .error e
  | none => .ok (ps.filterMap exceptValue?)

/-- The requests handleGenerate issues on the non-validation path: per
room image an enhancement call and then a generation call (Promise.all
does not cancel, so every chain issues both even if another chain
fails). -/
def issuedCalls (roomImages decorImages : List GFile) (stylePrompt : String) : List Call :=
  roomImages.flatMap
    (fun r => [Call.enhanceCall r, Call.generateCall r decorImages stylePrompt])

/-- App.tsx lines 34 to 69, as a transition on the Result-relevant state
together with the list of issued external calls.  Validation failures
set error and return early (previous results untouched, no call
issued); otherwise error is cleared, results are cleared, the per-room
chains are created, and Promise.all either commits all results or the
catch stores the first rejection message (results stay cleared).  The
isLoading flag is pure UI and is not modelled; `order` is the
completion order of the chains. -/
def handleGenerate (env : Env) (order : List Nat) (roomImages decorImages : List GFile)
    (stylePrompt : String) (s : AppState) : AppState × List Call :=
  if roomImages.length = 0 then
    ({ s with error := some "Please upload at least one image of your room." }, [])
  else if jsTrim stylePrompt = "" then
    ({ s with error := some "Please provide a style prompt." }, [])
  else
    let ps := roomImages.map (roomPromise env decorImages stylePrompt)
    match promiseAll order ps with
    | .ok generatedResults =>
      ({ results := generatedResults, error := none },
        issuedCalls roomImages decorImages stylePrompt)
    | .error e =>
      ({ results := [], error := some e.message },
        issuedCalls roomImages decorImages stylePrompt)

/-- Events of the per-room promise chains: issuing and completion of the
enhancement call and of the generation call of chain i. -/
inductive Event
  | issueEnhance (i : Nat)
  | completeEnhance (i : Nat)
  | issueGenerate (i : Nat)
  | completeGenerate (i : Nat)
  deriving DecidableEq

/-- Program order of chain i, read off the async closure of App.tsx
lines 49 to 58: enhanceImage is issued and awaited, and only then is
generateDecorIdeas issued and awaited. -/
def chainTrace (i : Nat) : List Event :=
  [.issueEnhance i, .completeEnhance i, .issueGenerate i, .completeGenerate i]

/-- All events of a batch of n chains. -/
def allEvents (n : Nat) : List Event := (List.range n).flatMap chainTrace

/-- A global execution trace is admissible iff it is an interleaving of
the n chains: it consists of exactly the chain events and preserves each
program order of each chain.  Across chains the interleaving is unconstrained
(roomImages.map creates every chain before Promise.all awaits any). -/
def Admissible (n : Nat) (t : List Event) : Prop :=
  t.Perm (allEvents n) ∧ ∀ i, i < n → (chainTrace i).Sublist t

/-- a occurs before b in trace t. -/
def precedes (t : List Event) (a b : Event) : Prop := [a, b].Sublist t

instance (t : List Event) (a b : Event) : Decidable (precedes t a b) :=
  inferInstanceAs (Decidable ([a, b].Sublist t))

/-- A decoded raster image: width and height (exact rational arithmetic
models the numeric computation of the compositor). -/
structure Img where
  width : ℚ
  height : ℚ
  deriving DecidableEq

/-- Which of the two input images a draw refers to. -/
inductive ImgTag
  | before
  | after
  deriving DecidableEq

/-- Canvas operations recorded by the compositor, in the argument order
of the 2d-context calls. -/
inductive CanvasOp
  | drawImage (src : ImgTag) (x y w h : ℚ)
  | fillRect (x y w h : ℚ)
  | fillText (text : String) (x y : ℚ)
  deriving DecidableEq

/-- The canvas the compositor allocates and the operations it performs
on it. -/
structure Canvas where
  width : ℚ
  height : ℚ
  ops : List CanvasOp
  deriving DecidableEq

/-- ResultCard createComparisonImage (src/unnamed/part_000164 lines 46 to
95), on the path where both images decoded and the 2d context is
available: the common height is the max of the two heights, each width
is rescaled by height over own height, the canvas is width-sum by
common height, and the draws and label overlays follow; the onload
bookkeeping and the toDataURL encoding are I/O plumbing outside the
geometry. -/
def createComparisonImage (before after : Img) : Canvas :=
  let height := max before.height after.height
  let beforeScaledWidth := before.width * (height / before.height)
  let afterScaledWidth := after.width * (height / after.height)
  { width := beforeScaledWidth + afterScaledWidth
    height := height
    ops :=
      [ .drawImage .before 0 0 beforeScaledWidth height
      , .drawImage .after beforeScaledWidth 0 afterScaledWidth height
      , .fillRect 0 (height - 40) 100 40
      , .fillText "BEFORE" 50 (height - 20)
      , .fillRect beforeScaledWidth (height - 40) 90 40
      , .fillText "AFTER" (beforeScaledWidth + 45) (height - 20) ] }

/-- A model response whose single candidate has one part carrying the
given inlineData data. -/
def mkResp (d : Option String) : GenResponse :=
  ⟨[⟨⟨[⟨some ⟨d, "image/png"⟩, none⟩]⟩⟩]⟩

/-- A well-formed room image file. -/
def fileA : GFile := ⟨.str "data:image/png;base64,AAA", "image/png"⟩

/-- A second well-formed room image file. -/
def fileB : GFile := ⟨.str "data:image/png;base64,BBB", "image/png"⟩

/-- Environment in which every call succeeds: enhancement responses
carry ENH, generation responses carry IMG. -/
def envOkW : Env :=
  ⟨fun _ => .ok (mkResp (some "ENH")), fun _ _ _ => .ok (mkResp (some "IMG"))⟩

/-- Environment in which generation for fileB throws while everything
else succeeds. -/
def envFailB : Env :=
  ⟨fun _ => .ok (mkResp (some "ENH")),
    fun r _ _ => if r = fileB then .error (.err "boom") else .ok (mkResp (some "IMG"))⟩

/-- Environment in which the enhancement transport call always throws. -/
def envEnhDown : Env :=
  ⟨fun _ => .error (.err "down"), fun _ _ _ => .ok (mkResp (some "IMG"))⟩

/-- Environment in which the generation transport call always throws. -/
def envGenDown : Env :=
  ⟨fun _ => .ok (mkResp (some "ENH")), fun _ _ _ => .error (.err "gone")⟩

/-- An app state already holding a result from an earlier batch. -/
def stateWithResults : AppState := ⟨[⟨some "OLD", "OLDIMG"⟩], none⟩

/-! ## Helper lemmas -/

/-- If every element of the list is a success, filtering the values out
and re-wrapping them reproduces the list (so Promise.all packs values in
input order). -/
theorem mapOk_filterMap {ε α : Type} :
    ∀ ps : List (Except ε α), (∀ p ∈ ps, ∃ v, p = Except.ok v) →
      (ps.filterMap exceptValue?).map Except.ok = ps
  | [], _ => rfl
  | p :: rest, h => by
    obtain ⟨v, rfl⟩ := h p (List.mem_cons_self p rest)
    have ih := mapOk_filterMap rest (fun q hq => h q (List.mem_cons_of_mem _ hq))
    simp [List.filterMap_cons, exceptValue?, ih]

/-- findSome? finds something as soon as one element yields something. -/
theorem findSome?_isSome_of_mem {α β : Type} (f : α → Option β) :
    ∀ (l : List α) (x : α), x ∈ l → (f x).isSome → (l.findSome? f).isSome
  | a :: t, x, hx, hfx => by
    rw [List.findSome?_cons]
    cases hfa : f a with
    | some b => simp
    | none =>
      rcases List.mem_cons.mp hx with rfl | hxt
      · rw [hfa] at hfx; simp at hfx
      · exact findSome?_isSome_of_mem f t x hxt hfx

/-- A find? by a weaker predicate that lands on an element satisfying a
stronger predicate is also the find? by the stronger predicate. -/
theorem find?_of_stronger {α : Type} (f g : α → Bool)
    (himp : ∀ x, g x = true → f x = true) :
    ∀ (l : List α) (a : α), l.find? f = some a → g a = true → l.find? g = some a
  | x :: xs, a, hfind, hga => by
    by_cases hfx : f x = true
    · rw [List.find?_cons_of_pos _ hfx] at hfind
      obtain rfl : x = a := by simpa using hfind
      exact List.find?_cons_of_pos _ hga
    · have hgx : ¬ g x = true := fun hg => hfx (himp x hg)
      rw [List.find?_cons_of_neg _ hfx] at hfind
      rw [List.find?_cons_of_neg _ hgx]
      exact find?_of_stronger f g himp xs a hfind hga

/-- An index with a successful lookup is within bounds. -/
theorem lt_length_of_getElem?_eq_some {α : Type} {l : List α} {i : Nat} {a : α}
    (h : l[i]? = some a) : i < l.length := by
  by_contra hcon
  push_neg at hcon
  rw [List.getElem?_eq_none hcon] at h
  exact Option.noConfusion h

/-- A room whose generation fails makes its chain reject, and the first
rejection Promise.all settles with is itself the rejection of some
chain, i.e. a generation error of some room of the batch. -/
theorem exists_firstRejection (env : Env) (order : List Nat)
    (roomImages decorImages : List GFile) (stylePrompt : String)
    (horder : order.Perm (List.range roomImages.length))
    (hfail : ∃ r ∈ roomImages, ∀ img,
      generateDecorIdeas env r decorImages stylePrompt ≠ Except.ok img) :
    ∃ e : JsError,
      firstRejection order (roomImages.map (roomPromise env decorImages stylePrompt))
        = some e ∧
      ∃ r ∈ roomImages, generateDecorIdeas env r decorImages stylePrompt
        = Except.error e := by
  obtain ⟨r, hr, hbad⟩ := hfail
  have hperr : ∃ e0, roomPromise env decorImages stylePrompt r = Except.error e0 := by
    cases hgen : generateDecorIdeas env r decorImages stylePrompt with
    | ok img => exact absurd hgen (hbad img)
    | error e0 => exact ⟨e0, by simp [roomPromise, hgen]⟩
  obtain ⟨e0, he0⟩ := hperr
  have hmem : (Except.error e0 : Except JsError Result)
      ∈ roomImages.map (roomPromise env decorImages stylePrompt) :=
    he0 ▸ List.mem_map_of_mem _ hr
  obtain ⟨i, hi⟩ := List.mem_iff_getElem?.mp hmem
  have hilt : i < roomImages.length := by
    have := lt_length_of_getElem?_eq_some hi
    simpa using this
  have hiord : i ∈ order := horder.mem_iff.mpr (List.mem_range.mpr hilt)
  have hsome : (firstRejection order
      (roomImages.map (roomPromise env decorImages stylePrompt))).isSome := by
    apply findSome?_isSome_of_mem _ order i hiord
    simp [hi]
  obtain ⟨e, he⟩ := Option.isSome_iff_exists.mp hsome
  refine ⟨e, he, ?_⟩
  obtain ⟨j, _, hje⟩ := List.exists_of_findSome?_eq_some he
  have hpj : (roomImages.map (roomPromise env decorImages stylePrompt))[j]?
      = some (Except.error e) := by
    cases hg : (roomImages.map (roomPromise env decorImages stylePrompt))[j]? with
    | none => rw [hg] at hje; simp at hje
    | some p =>
      rw [hg] at hje
      cases p with
      | ok v => simp at hje
      | error e2 =>
        have : e2 = e := by simpa using hje
        rw [this]
  have herrmem : (Except.error e : Except JsError Result)
      ∈ roomImages.map (roomPromise env decorImages stylePrompt) :=
    List.getElem?_mem hpj
  obtain ⟨r2, hr2, hr2e⟩ := List.mem_map.mp herrmem
  refine ⟨r2, hr2, ?_⟩
  cases hgen : generateDecorIdeas env r2 decorImages stylePrompt with
  | ok v => simp [roomPromise, hgen] at hr2e
  | error e2 =>
    have : e2 = e := by simpa [roomPromise, hgen] using hr2e
    rw [← this]

/-- On valid inputs, a rejection of Promise.all makes handleGenerate
store the rejection message with the results left cleared. -/
theorem handleGenerate_reject (env : Env) (order : List Nat)
    (roomImages decorImages : List GFile) (stylePrompt : String) (s : AppState)
    (hne : roomImages ≠ []) (hp : jsTrim stylePrompt ≠ "") (e : JsError)
    (he : firstRejection order (roomImages.map (roomPromise env decorImages stylePrompt))
      = some e) :
    (handleGenerate env order roomImages decorImages stylePrompt s).1
      = ⟨[], some e.message⟩ := by
  have hlen : ¬ roomImages.length = 0 := by simpa [List.length_eq_zero] using hne
  simp [handleGenerate, promiseAll, hlen, hp, he]

/-! ## Claim theorems -/

/-- C8 counterexample: the spec claims the encode operation fails with a
ReadError whenever the underlying read fails or yields no data and never
silently returns an empty payload; but on a non-string reader result
(the value after a failed read) fileToGenerativePart resolves
successfully with an empty-string payload, so the no-empty-payload
property is false. -/
theorem encode_counterexample :
    ¬ ∀ f : GFile, (fileToGenerativePart f).inlineData.data ≠ some "" := by
  intro h
  exact h ⟨ReaderResult.nonString, "image/png"⟩ rfl

/-- C8 amended: if the underlying read fails or yields a non-string
result, fileToGenerativePart does not fail: it resolves with an
empty-string payload and the mime type of the file; no ReadError exists in
the code. -/
theorem fileToGenerativePart_nonString (f : GFile)
    (h : f.readerResult = ReaderResult.nonString) :
    fileToGenerativePart f = ⟨⟨some "", f.ftype⟩⟩ := by
  simp [fileToGenerativePart, h]

/-- C8 witness: the amended behaviour at a concrete file. -/
theorem fileToGenerativePart_nonString_witness :
    fileToGenerativePart ⟨ReaderResult.nonString, "image/jpeg"⟩
      = ⟨⟨some "", "image/jpeg"⟩⟩ :=
  fileToGenerativePart_nonString ⟨ReaderResult.nonString, "image/jpeg"⟩ rfl

/-- C9: for decodable before/after images (positive heights), the
compositor canvas is max-height by sum-of-scaled-widths, the scaled
widths preserve each aspect ratio at the common height, the before image
is drawn at x-offset 0 and the after image at x-offset equal to the
scaled width of the before image. -/
theorem createComparisonImage_dims (before after : Img)
    (hb : 0 < before.height) (ha : 0 < after.height) :
    (createComparisonImage before after).height = max before.height after.height ∧
    ∃ bw aw : ℚ,
      (createComparisonImage before after).width = bw + aw ∧
      bw * before.height = before.width * (createComparisonImage before after).height ∧
      aw * after.height = after.width * (createComparisonImage before after).height ∧
      CanvasOp.drawImage ImgTag.before 0 0 bw (createComparisonImage before after).height
        ∈ (createComparisonImage before after).ops ∧
      CanvasOp.drawImage ImgTag.after bw 0 aw (createComparisonImage before after).height
        ∈ (createComparisonImage before after).ops := by
  have hbne : before.height ≠ 0 := ne_of_gt hb
  have hane : after.height ≠ 0 := ne_of_gt ha
  refine ⟨rfl, before.width * (max before.height after.height / before.height),
    after.width * (max before.height after.height / after.height), rfl, ?_, ?_, ?_, ?_⟩
  · rw [mul_assoc, div_mul_cancel₀ _ hbne]; rfl
  · rw [mul_assoc, div_mul_cancel₀ _ hane]; rfl
  · simp [createComparisonImage]
  · simp [createComparisonImage]

/-- C9 witness: concrete 4 by 2 and 3 by 6 images, common height 6,
scaled widths 12 and 3. -/
theorem createComparisonImage_dims_witness :
    (createComparisonImage (Img.mk 4 2) (Img.mk 3 6)).height
      = max (Img.mk 4 2).height (Img.mk 3 6).height ∧
    ∃ bw aw : ℚ,
      (createComparisonImage (Img.mk 4 2) (Img.mk 3 6)).width = bw + aw ∧
      bw * (Img.mk 4 2).height
        = (Img.mk 4 2).width * (createComparisonImage (Img.mk 4 2) (Img.mk 3 6)).height ∧
      aw * (Img.mk 3 6).height
        = (Img.mk 3 6).width * (createComparisonImage (Img.mk 4 2) (Img.mk 3 6)).height ∧
      CanvasOp.drawImage ImgTag.before 0 0 bw
          (createComparisonImage (Img.mk 4 2) (Img.mk 3 6)).height
        ∈ (createComparisonImage (Img.mk 4 2) (Img.mk 3 6)).ops ∧
      CanvasOp.drawImage ImgTag.after bw 0 aw
          (createComparisonImage (Img.mk 4 2) (Img.mk 3 6)).height
        ∈ (createComparisonImage (Img.mk 4 2) (Img.mk 3 6)).ops :=
  createComparisonImage_dims (Img.mk 4 2) (Img.mk 3 6) (by norm_num) (by norm_num)

/-- C6: with an empty room-image list, or a prompt that is blank after
trimming, handleGenerate issues no external call, leaves the displayed
results untouched and stores the corresponding validation message (the
empty-room check runs first). -/
theorem handleGenerate_validation (env : Env) (order : List Nat)
    (roomImages decorImages : List GFile) (stylePrompt : String) (s : AppState)
    (h : roomImages = [] ∨ jsTrim stylePrompt = "") :
    (handleGenerate env order roomImages decorImages stylePrompt s).2 = [] ∧
    (handleGenerate env order roomImages decorImages stylePrompt s).1.results
      = s.results ∧
    (handleGenerate env order roomImages decorImages stylePrompt s).1.error =
      some (if roomImages = [] then "Please upload at least one image of your room."
        else "Please provide a style prompt.") := by
  by_cases hr : roomImages = []
  · subst hr
    simp [handleGenerate]
  · rcases h with h | h
    · exact absurd h hr
    · have hlen : ¬ roomImages.length = 0 := by
        simpa [List.length_eq_zero] using hr
      simp [handleGenerate, hlen, h, hr]

/-- C6 witness: an empty room-image list at concrete inputs. -/
theorem handleGenerate_validation_witness :
    (handleGenerate envOkW [0] [] [fileA] "cozy" stateWithResults).2 = [] ∧
    (handleGenerate envOkW [0] [] [fileA] "cozy" stateWithResults).1.results
      = stateWithResults.results ∧
    (handleGenerate envOkW [0] [] [fileA] "cozy" stateWithResults).1.error =
      some (if ([] : List GFile) = [] then "Please upload at least one image of your room."
        else "Please provide a style prompt.") :=
  handleGenerate_validation envOkW [0] [] [fileA] "cozy" stateWithResults (Or.inl rfl)

/-- C1: on a non-empty room-image list, a prompt non-empty after
trimming and a batch whose generations all succeed, handleGenerate
commits a result list of the same length as the room-image list whose
i-th entry is the outcome of the chain of the i-th room image, for every
completion order of the chains. -/
theorem handleGenerate_ordered_results (env : Env) (order : List Nat)
    (roomImages decorImages : List GFile) (stylePrompt : String) (s : AppState)
    (hne : roomImages ≠ []) (hp : jsTrim stylePrompt ≠ "")
    (hok : ∀ r ∈ roomImages, ∃ img,
      generateDecorIdeas env r decorImages stylePrompt = Except.ok img) :
    (handleGenerate env order roomImages decorImages stylePrompt s).1.error = none ∧
    (handleGenerate env order roomImages decorImages stylePrompt s).1.results.length
      = roomImages.length ∧
    (handleGenerate env order roomImages decorImages stylePrompt s).1.results.map Except.ok
      = roomImages.map (roomPromise env decorImages stylePrompt) := by
  have hps : ∀ p ∈ roomImages.map (roomPromise env decorImages stylePrompt),
      ∃ v, p = Except.ok v := by
    intro p hp'
    obtain ⟨r, hr, rfl⟩ := List.mem_map.mp hp'
    obtain ⟨img, himg⟩ := hok r hr
    exact ⟨⟨enhanceImage env r, img⟩, by simp [roomPromise, himg]⟩
  have hfr : firstRejection order (roomImages.map (roomPromise env decorImages stylePrompt))
      = none := by
    rw [firstRejection, List.findSome?_eq_none_iff]
    intro i _
    cases hg : (roomImages.map (roomPromise env decorImages stylePrompt))[i]? with
    | none => rfl
    | some p =>
      obtain ⟨v, rfl⟩ := hps p (List.getElem?_mem hg)
      rfl
  have hlen : ¬ roomImages.length = 0 := by simpa [List.length_eq_zero] using hne
  have hmap := mapOk_filterMap _ hps
  have hout : (handleGenerate env order roomImages decorImages stylePrompt s).1
      = ⟨(roomImages.map (roomPromise env decorImages stylePrompt)).filterMap exceptValue?,
          none⟩ := by
    simp [handleGenerate, promiseAll, hlen, hp, hfr]
  refine ⟨by rw [hout], ?_, by rw [hout]; exact hmap⟩
  rw [hout]
  have := congrArg List.length hmap
  simpa using this

/-- C1 witness: two rooms, all calls succeeding, reversed completion
order. -/
theorem handleGenerate_ordered_results_witness :
    (handleGenerate envOkW [1, 0] [fileA, fileB] [] "cozy" stateWithResults).1.error
      = none ∧
    (handleGenerate envOkW [1, 0] [fileA, fileB] [] "cozy" stateWithResults).1.results.length
      = [fileA, fileB].length ∧
    (handleGenerate envOkW [1, 0] [fileA, fileB] [] "cozy" stateWithResults).1.results.map
        Except.ok
      = [fileA, fileB].map (roomPromise envOkW [] "cozy") :=
  handleGenerate_ordered_results envOkW [1, 0] [fileA, fileB] [] "cozy" stateWithResults
    (by simp) (by decide) (fun r _ => ⟨"IMG", rfl⟩)

/-- C2: on valid inputs, if the generation of any room image fails, the
whole run rejects: the committed result list is empty and the stored
error is the message of the first rejection in completion order, which
is itself the generation error of one of the room images (in particular
no partial list survives a one-room failure). -/
theorem handleGenerate_all_or_nothing (env : Env) (order : List Nat)
    (roomImages decorImages : List GFile) (stylePrompt : String) (s : AppState)
    (hne : roomImages ≠ []) (hp : jsTrim stylePrompt ≠ "")
    (horder : order.Perm (List.range roomImages.length))
    (hfail : ∃ r ∈ roomImages, ∀ img,
      generateDecorIdeas env r decorImages stylePrompt ≠ Except.ok img) :
    (handleGenerate env order roomImages decorImages stylePrompt s).1.results = [] ∧
    ∃ e : JsError,
      firstRejection order (roomImages.map (roomPromise env decorImages stylePrompt))
        = some e ∧
      (handleGenerate env order roomImages decorImages stylePrompt s).1.error
        = some e.message ∧
      ∃ r ∈ roomImages, generateDecorIdeas env r decorImages stylePrompt
        = Except.error e := by
  obtain ⟨e, he, hsrc⟩ :=
    exists_firstRejection env order roomImages decorImages stylePrompt horder hfail
  have hout := handleGenerate_reject env order roomImages decorImages stylePrompt s
    hne hp e he
  exact ⟨by rw [hout], e, he, by rw [hout], hsrc⟩

/-- C2 witness: rooms A and B where the generation of B throws and that
of A succeeds; the run rejects with the wrapped generation error and commits
nothing. -/
theorem handleGenerate_all_or_nothing_witness :
    (handleGenerate envFailB [0, 1] [fileA, fileB] [] "cozy" stateWithResults).1.results
      = [] ∧
    ∃ e : JsError,
      firstRejection [0, 1] ([fileA, fileB].map (roomPromise envFailB [] "cozy"))
        = some e ∧
      (handleGenerate envFailB [0, 1] [fileA, fileB] [] "cozy" stateWithResults).1.error
        = some e.message ∧
      ∃ r ∈ [fileA, fileB], generateDecorIdeas envFailB r [] "cozy"
        = Except.error e :=
  handleGenerate_all_or_nothing envFailB [0, 1] [fileA, fileB] [] "cozy" stateWithResults
    (by simp) (by decide) (by decide)
    ⟨fileB, by simp, fun img h => by
      rw [show generateDecorIdeas envFailB fileB [] "cozy"
          = Except.error ⟨"Failed to generate design: boom"⟩ from rfl] at h
      exact Except.noConfusion h⟩

/-- C10: whenever a batch that passed validation fails, the
caller-visible result list is empty rather than unchanged: handleGenerate
cleared the previously displayed results before issuing the requests and
the catch path does not restore them, so a failed batch erases the
results of an earlier successful batch. -/
theorem failed_run_clears_results (env : Env) (order : List Nat)
    (roomImages decorImages : List GFile) (stylePrompt : String) (s : AppState)
    (hne : roomImages ≠ []) (hp : jsTrim stylePrompt ≠ "")
    (horder : order.Perm (List.range roomImages.length))
    (hfail : ∃ r ∈ roomImages, ∀ img,
      generateDecorIdeas env r decorImages stylePrompt ≠ Except.ok img) :
    (handleGenerate env order roomImages decorImages stylePrompt s).1.results = [] ∧
    (s.results ≠ [] →
      (handleGenerate env order roomImages decorImages stylePrompt s).1.results
        ≠ s.results) := by
  obtain ⟨e, he, _⟩ :=
    exists_firstRejection env order roomImages decorImages stylePrompt horder hfail
  have hout := handleGenerate_reject env order roomImages decorImages stylePrompt s
    hne hp e he
  refine ⟨by rw [hout], ?_⟩
  intro hsr
  rw [hout]
  exact fun hcon => hsr hcon.symm

/-- C10 witness: a failing batch run from a state holding an earlier
result erases it. -/
theorem failed_run_clears_results_witness :
    (handleGenerate envFailB [1, 0] [fileA, fileB] [] "cozy" stateWithResults).1.results
      = [] ∧
    (stateWithResults.results ≠ [] →
      (handleGenerate envFailB [1, 0] [fileA, fileB] [] "cozy" stateWithResults).1.results
        ≠ stateWithResults.results) :=
  failed_run_clears_results envFailB [1, 0] [fileA, fileB] [] "cozy" stateWithResults
    (by simp) (by decide) (by decide)
    ⟨fileB, by simp, fun img h => by
      rw [show generateDecorIdeas envFailB fileB [] "cozy"
          = Except.error ⟨"Failed to generate design: boom"⟩ from rfl] at h
      exact Except.noConfusion h⟩

/-- C7 counterexample: the spec claims enhancement and design generation
of one room image run concurrently, neither waiting for the other to be
issued; but in every admissible trace of a one-room batch the generation
call is issued only after the enhancement call completed, so no
admissible trace issues generation before enhancement completes. -/
theorem chain_concurrency_counterexample :
    ¬ ∃ t : List Event, Admissible 1 t ∧
      precedes t (Event.issueGenerate 0) (Event.completeEnhance 0) := by
  rintro ⟨t, ⟨hperm, hsub⟩, hprec⟩
  have hlen : t.length = 4 := by
    simpa [allEvents, chainTrace] using hperm.length_eq
  have heq : chainTrace 0 = t :=
    (hsub 0 (by norm_num)).eq_of_length (by simp [chainTrace, hlen])
  rw [← heq] at hprec
  exact (by decide : ¬ precedes (chainTrace 0) (Event.issueGenerate 0)
    (Event.completeEnhance 0)) hprec

/-- C7 amended: within the chain of each room image the two operations are
sequential (the enhancement call completes before the generation call is
issued in every admissible trace), while across room images the chains
do run concurrently (some admissible trace of a two-room batch issues
the enhancement of the second room before the enhancement of the first has
completed). -/
theorem chain_sequential_within_room (n : Nat) (t : List Event)
    (h : Admissible n t) (i : Nat) (hi : i < n) :
    precedes t (Event.completeEnhance i) (Event.issueGenerate i) ∧
    ∃ t2 : List Event, Admissible 2 t2 ∧
      precedes t2 (Event.issueEnhance 1) (Event.completeEnhance 0) := by
  constructor
  · have hone : precedes (chainTrace i) (Event.completeEnhance i)
        (Event.issueGenerate i) :=
      .cons _ (.cons₂ _ (.cons₂ _ (List.nil_sublist _)))
    exact hone.trans (h.2 i hi)
  · refine ⟨[Event.issueEnhance 0, Event.issueEnhance 1, Event.completeEnhance 0,
      Event.issueGenerate 0, Event.completeGenerate 0, Event.completeEnhance 1,
      Event.issueGenerate 1, Event.completeGenerate 1], ?_, ?_⟩
    · exact ⟨by decide, by decide⟩
    · decide

/-- C7 amended witness: the one-room program-order trace is admissible
and orders enhancement completion before generation issue. -/
theorem chain_sequential_within_room_witness :
    precedes (chainTrace 0) (Event.completeEnhance 0) (Event.issueGenerate 0) ∧
    ∃ t2 : List Event, Admissible 2 t2 ∧
      precedes t2 (Event.issueEnhance 1) (Event.completeEnhance 0) :=
  chain_sequential_within_room 1 (chainTrace 0) ⟨by decide, by decide⟩ 0 (by decide)

/-- C4: if the enhancement transport call throws, or its response holds
no part with truthy image data, enhanceImage returns the re-encoded
bytes of the original input image (and, the function being total, it
never rejects); consequently the corresponding chain still succeeds
whenever its generation succeeds, pairing exactly those original bytes
as the before-image. -/
theorem enhanceImage_fallback (env : Env) (f : GFile)
    (h : ∀ response, env.enhance f = Except.ok response →
      (candidateParts response).find? truthyData = none) :
    enhanceImage env f = (fileToGenerativePart f).inlineData.data ∧
    ∀ (decorImages : List GFile) (stylePrompt : String) (idea : String),
      generateDecorIdeas env f decorImages stylePrompt = Except.ok idea →
      roomPromise env decorImages stylePrompt f =
        Except.ok ⟨(fileToGenerativePart f).inlineData.data, idea⟩ := by
  have henh : enhanceImage env f = (fileToGenerativePart f).inlineData.data := by
    cases he : env.enhance f with
    | error th => simp [enhanceImage, he]
    | ok response => simp [enhanceImage, he, h response he]
  refine ⟨henh, ?_⟩
  intro decorImages stylePrompt idea hg
  simp [roomPromise, henh, hg]

/-- C4 witness: the enhancement transport is down, the original bytes
come back and the chain still succeeds. -/
theorem enhanceImage_fallback_witness :
    enhanceImage envEnhDown fileA = (fileToGenerativePart fileA).inlineData.data ∧
    roomPromise envEnhDown [] "cozy" fileA =
      Except.ok ⟨(fileToGenerativePart fileA).inlineData.data, "IMG"⟩ :=
  ⟨(enhanceImage_fallback envEnhDown fileA (fun _ hresp => Except.noConfusion hresp)).1,
    (enhanceImage_fallback envEnhDown fileA (fun _ hresp => Except.noConfusion hresp)).2
      [] "cozy" "IMG" rfl⟩

/-- C5: generateDecorIdeas fails with the wrapped no-image
GenerationError whenever the response has no part with truthy image
data (no fallback to the input image), wraps any thrown transport or
service error into a GenerationError, and on success returns the data
of the first image-bearing part of the response, scanning parts in
order (that part is both the first with an inlineData field and the
first with truthy data). -/
theorem generateDecorIdeas_contract (env : Env) (roomImage : GFile)
    (decorImages : List GFile) (stylePrompt : String) :
    (∀ response, env.generate roomImage decorImages stylePrompt = Except.ok response →
      (candidateParts response).find? truthyData = none →
      generateDecorIdeas env roomImage decorImages stylePrompt =
        Except.error (wrapThrown (JsThrown.err noImageMsg))) ∧
    (∀ th, env.generate roomImage decorImages stylePrompt = Except.error th →
      generateDecorIdeas env roomImage decorImages stylePrompt =
        Except.error (wrapThrown th)) ∧
    (∀ img, generateDecorIdeas env roomImage decorImages stylePrompt = Except.ok img →
      ∃ response, env.generate roomImage decorImages stylePrompt = Except.ok response ∧
        ∃ part,
          (candidateParts response).find? (fun p => p.inlineData.isSome) = some part ∧
          (candidateParts response).find? truthyData = some part ∧
          part.inlineData.bind (fun d => d.data) = some img ∧
          img ≠ "") := by
  refine ⟨?_, ?_, ?_⟩
  · intro response he hfind
    cases hscan : (candidateParts response).find? (fun p => p.inlineData.isSome) with
    | none => simp [generateDecorIdeas, he, scanImage, hscan]
    | some part =>
      have hps : part.inlineData.isSome := by simpa using List.find?_some hscan
      obtain ⟨d, hd⟩ := Option.isSome_iff_exists.mp hps
      have htr : truthyData part = false := by
        have := List.find?_eq_none.mp hfind part (List.mem_of_find?_eq_some hscan)
        simpa using this
      cases hdd : d.data with
      | none => simp [generateDecorIdeas, he, scanImage, hscan, hd, hdd]
      | some sdata =>
        have hs : sdata = "" := by
          simpa [truthyData, hd, hdd] using htr
        simp [generateDecorIdeas, he, scanImage, hscan, hd, hdd, hs]
  · intro th he
    simp [generateDecorIdeas, he]
  · intro img himg
    cases he : env.generate roomImage decorImages stylePrompt with
    | error th => simp [generateDecorIdeas, he] at himg
    | ok response =>
      refine ⟨response, rfl, ?_⟩
      simp only [generateDecorIdeas, he] at himg
      cases hscan2 : scanImage (candidateParts response) with
      | none => simp [hscan2] at himg
      | some sdata =>
        simp only [hscan2] at himg
        by_cases hse : sdata = ""
        · simp [hse] at himg
        · have himg2 : sdata = img := by simpa [hse] using himg
          subst himg2
          cases hscan : (candidateParts response).find? (fun p => p.inlineData.isSome) with
          | none =>
            rw [scanImage] at hscan2
            rw [hscan] at hscan2
            simp at hscan2
            exact absurd hscan2.symm hse
          | some part =>
            rw [scanImage] at hscan2
            rw [hscan] at hscan2
            have hps : part.inlineData.isSome := by simpa using List.find?_some hscan
            obtain ⟨d, hd⟩ := Option.isSome_iff_exists.mp hps
            have hdd : d.data = some sdata := by simpa [hd] using hscan2
            have htrue : truthyData part = true := by
              simp [truthyData, hd, hdd, hse]
            have hfind2 : (candidateParts response).find? truthyData = some part :=
              find?_of_stronger (fun p => p.inlineData.isSome) truthyData
                (fun x hx => by
                  cases hxi : x.inlineData with
                  | none => simp [truthyData, hxi] at hx
                  | some d2 => simp [hxi]) (candidateParts response) part hscan htrue
            exact ⟨part, rfl, hfind2, by simp [hd, hdd], hse⟩

/-- C5 witness: a thrown transport error at concrete inputs is wrapped
into the user-facing GenerationError. -/
theorem generateDecorIdeas_contract_witness :
    generateDecorIdeas envGenDown fileA [] "cozy" =
      Except.error (wrapThrown (JsThrown.err "gone")) :=
  (generateDecorIdeas_contract envGenDown fileA [] "cozy").2.1 (JsThrown.err "gone") rfl

/-- C3, code divergence evaluated: App.tsx types Result.idea as
DesignIdea (a description plus an after-image) and ResultCard reads
result.idea.description and result.idea.image, but generateDecorIdeas
returns only the bare after-image string and geminiService never defines
or exports DesignIdea; on a successful batch the committed idea is that
bare string, with no description component anywhere in the pipeline. -/
theorem result_idea_is_bare_string :
    ((handleGenerate envOkW [0] [fileA] [] "cozy" ⟨[], none⟩).1).results =
      [⟨some "ENH", "IMG"⟩] := by decide

end RoomDesigner
